import Mathlib

/-!
A verification development for the bookstore REST API. The JavaScript
sources (`src/utils/helpers.js`, `src/middlewares/security.js`,
`src/services/bookService.js`, the Book mongoose schema, and the auth
controller's login handler) are shallowly embedded as executable Lean
functions, and the behavioural properties of the natural-language
specification are proved or refuted against them.

Modelling conventions:
  * JS strings are Lean `String`s; the handful of string builtins used by
    the code (`trim`, `split(',')`, `replace` with a character-class
    regex, `startsWith`, `substring`) are re-implemented structurally over
    `String.data` so that every definition evaluates inside the kernel.
  * `parseInt` / `parseFloat` are modelled by `parseIntJS` / `parseFloatJS`;
    `none` plays the role of `NaN`.  (Hexadecimal prefixes and exponent
    notation, which no caller of these helpers exercises, are not modelled.)
  * JS numbers produced by `parseFloat` are modelled as exact decimals
    `DecNum` (mantissa × 10^(-exp10)); no property proved here depends on
    binary floating-point rounding.
  * JS objects built by key assignment are association lists; `jsAssign`
    reproduces JS semantics: assigning to an existing key overwrites the
    value in place, assigning to a fresh key appends it.
  * The MongoDB store is a list of records; `find`, `findOne`, `findById`,
    `countDocuments` and `save` are interpreted against that list.  A
    mongoose `findById`/`findByIdAndUpdate` casts the id string before the
    store is consulted, so a malformed id raises `CastError` without any
    lookup; the embedding checks `isValidObjectId` first, independently of
    the store.
-/

/-! ### JS string and number primitives -/

/-- The characters matched by `\s` in the source's regexes (ASCII part). -/
def jsSpace (c : Char) : Bool :=
  c = ' ' || c = '\t' || c = '\n' || c = '\r' || c = '\x0b' || c = '\x0c'

/-- Strip leading and trailing whitespace, as JS `String.prototype.trim`. -/
def trimList (cs : List Char) : List Char :=
  ((cs.dropWhile jsSpace).reverse.dropWhile jsSpace).reverse

/-- JS `s.trim()`. -/
def jsTrim (s : String) : String := ⟨trimList s.data⟩

/-- Decimal digits to a natural number. -/
def digitsToNat (ds : List Char) : Nat :=
  ds.foldl (fun a c => a * 10 + (c.toNat - 48)) 0

/-- JS `parseInt(s)`: skip leading whitespace, read an optional sign and a
maximal run of decimal digits; `none` models `NaN`. -/
def parseIntJS (s : String) : Option Int :=
  let cs := s.data.dropWhile jsSpace
  let p : Int × List Char :=
    match cs with
    | '-' :: r => (-1, r)
    | '+' :: r => (1, r)
    | r => (1, r)
  let ds := p.2.takeWhile Char.isDigit
  if ds.isEmpty then none else some (p.1 * digitsToNat ds)

/-- Exact decimal number: the value `man / 10 ^ exp10`.  Stands in for the
JS doubles produced by `parseFloat` (whose callers here only ever compare
values, which the decimal model decides exactly). -/
structure DecNum where
  man : Int
  exp10 : Nat
  deriving Repr, DecidableEq

/-- Comparison of two decimals by cross-multiplication. -/
def DecNum.le (a b : DecNum) : Bool :=
  a.man * (10 : Int) ^ b.exp10 ≤ b.man * (10 : Int) ^ a.exp10

/-- Value equality of two decimals (not syntactic equality). -/
def DecNum.eqv (a b : DecNum) : Bool :=
  a.man * (10 : Int) ^ b.exp10 = b.man * (10 : Int) ^ a.exp10

/-- JS `parseFloat(s)` restricted to plain decimal notation; `none` models
`NaN`. -/
def parseFloatJS (s : String) : Option DecNum :=
  let cs := s.data.dropWhile jsSpace
  let p : Int × List Char :=
    match cs with
    | '-' :: r => (-1, r)
    | '+' :: r => (1, r)
    | r => (1, r)
  let ip := p.2.takeWhile Char.isDigit
  let rest := p.2.drop ip.length
  let fp : List Char :=
    match rest with
    | '.' :: r => r.takeWhile Char.isDigit
    | _ => []
  if ip.isEmpty && fp.isEmpty then none
  else some ⟨p.1 * ((digitsToNat ip : Int) * (10 : Int) ^ fp.length + digitsToNat fp), fp.length⟩

/-- JS `s.split(',')` on the character list: every comma separates, empty
segments are kept. -/
def splitCommaList : List Char → List (List Char)
  | [] => [[]]
  | c :: rest =>
    let r := splitCommaList rest
    if c = ',' then [] :: r
    else
      match r with
      | h :: t => (c :: h) :: t
      | [] => [[c]]

/-- JS `s.split(',')`. -/
def splitComma (s : String) : List String :=
  (splitCommaList s.data).map (fun l => (⟨l⟩ : String))

/-- ASCII lowercasing, for the case-insensitive `$regex` matches. -/
def lowerChar (c : Char) : Char :=
  if 'A' ≤ c && c ≤ 'Z' then Char.ofNat (c.toNat + 32) else c

/-- `p` is a prefix of `l` (boolean, by decidable equality). -/
def isPrefixList : List Char → List Char → Bool
  | [], _ => true
  | _ :: _, [] => false
  | a :: as, b :: bs => a = b && isPrefixList as bs

/-- `p` occurs as a contiguous run inside `l`. -/
def isInfixList (p : List Char) : List Char → Bool
  | [] => p.isEmpty
  | l@(_ :: rest) => isPrefixList p l || isInfixList p rest

/-- Case-insensitive substring test: the semantics of
`{ $regex: term, $options: 'i' }` for the plain-text terms this API
matches (regex metacharacters are not modelled; no claim depends on them). -/
def containsCI (hay needle : String) : Bool :=
  isInfixList (needle.data.map lowerChar) (hay.data.map lowerChar)

/-- JS object assignment `o[k] = v` on an association-list model: an
existing key is overwritten in place, a fresh key is appended. -/
def jsAssign {α : Type} (o : List (String × α)) (k : String) (v : α) : List (String × α) :=
  if o.any (fun p => p.1 = k) then o.map (fun p => if p.1 = k then (k, v) else p)
  else o ++ [(k, v)]

/-- Property read `o[k]` on an association-list object. -/
def qget {α : Type} (o : List (String × α)) (k : String) : Option α :=
  (o.find? (fun p => p.1 = k)).map (fun p => p.2)

/-- JS truthiness of a possibly-absent string: `undefined` and `""` are
falsy, every other string is truthy. -/
def truthyS (o : Option String) : Bool :=
  match o with
  | some s => s ≠ ""
  | none => false

/-- `o[k]` as a string, defaulting to `""` (only read under a truthiness
guard, where the key is present). -/
def qstr (o : List (String × String)) (k : String) : String :=
  (qget o k).getD ""

/-! ### `src/utils/helpers.js` -/

/-- The pagination descriptor returned by `calculatePagination`. -/
structure Pagination where
  currentPage : Int
  itemsPerPage : Int
  totalItems : Nat
  totalPages : Nat
  skip : Int
  hasNextPage : Bool
  hasPreviousPage : Bool
  deriving Repr, DecidableEq

/-- JS `x || d` for a parsed number `x`: `NaN` (here `none`) and `0` are
falsy and fall back to the default. -/
def jsOrDefault (v : Option Int) (d : Int) : Int :=
  match v with
  | some n => if n = 0 then d else n
  | none => d

/-- `calculatePagination(page, limit, totalItems)` from `helpers.js`:
`currentPage = Math.max(1, parseInt(page) || 1)`,
`itemsPerPage = Math.min(Math.max(1, parseInt(limit) || 10), 100)`,
`totalPages = Math.ceil(totalItems / itemsPerPage)`,
`skip = (currentPage - 1) * itemsPerPage`. -/
def calculatePagination (page limit : Option String) (totalItems : Nat) : Pagination :=
  let currentPage : Int := max 1 (jsOrDefault (page.bind parseIntJS) 1)
  let itemsPerPage : Int := min (max 1 (jsOrDefault (limit.bind parseIntJS) 10)) 100
  let totalPages : Nat := (totalItems + itemsPerPage.toNat - 1) / itemsPerPage.toNat
  { currentPage := currentPage
    itemsPerPage := itemsPerPage
    totalItems := totalItems
    totalPages := totalPages
    skip := (currentPage - 1) * itemsPerPage
    hasNextPage := currentPage < (totalPages : Int)
    hasPreviousPage := currentPage > 1 }

/-- One token of a sort string: trim it, then detect and strip a leading
dash (order `-1` when dashed, `1` otherwise). -/
def sortToken (t0 : String) : String × Int :=
  let t := jsTrim t0
  match t.data with
  | '-' :: rest => ((⟨rest⟩ : String), -1)
  | _ => (t, 1)

/-- The body of `parseSort`'s `sortFields.forEach(field => ...)`: the
token is assigned into the sort object when its bare field is allow-listed
(or the allow-list is empty). -/
def sortStep (allowedFields : List String) (obj : List (String × Int)) (f : String) :
    List (String × Int) :=
  let t := sortToken f
  if allowedFields.isEmpty || allowedFields.contains t.1 then jsAssign obj t.1 t.2 else obj

/-- `parseSort(sortString, allowedFields)` from `helpers.js`.  A falsy sort
string yields the default `{ createdAt: -1 }`; otherwise the string is
split on commas and each token is processed by `sortStep`; an empty result
also falls back to the default. -/
def parseSort (sortString : Option String) (allowedFields : List String) : List (String × Int) :=
  match sortString with
  | none => [("createdAt", -1)]
  | some s =>
    if s = "" then [("createdAt", -1)]
    else
      let sortObj : List (String × Int) := (splitComma s).foldl (sortStep allowedFields) []
      if sortObj.length > 0 then sortObj else [("createdAt", -1)]

/-- A value of the MongoDB filter object produced by `parseFilters`:
an exact string, an exact parsed number, or a `$gte`/`$lte` range object
(the outer `Option` records whether the bound key was set, the inner one
is the `NaN`-ability of the parsed number). -/
inductive FilterVal where
  | str (s : String)
  | num (n : Option Int)
  | fnum (x : Option DecNum)
  | numRange (gte lte : Option (Option Int))
  | fnumRange (gte lte : Option (Option DecNum))
  deriving Repr, DecidableEq

/-- The `publishedYear` range object: the successive assignments
`filters[f] = { ...filters[f], $gte: parseInt(...) }` and
`... $lte: parseInt(...) }` net to one object holding the bounds whose
suffix keys were truthy. -/
def filterRangeInt (q : List (String × String)) (field : String) : FilterVal :=
  FilterVal.numRange
    (if truthyS (qget q (field ++ "_gte")) then some (parseIntJS (qstr q (field ++ "_gte"))) else none)
    (if truthyS (qget q (field ++ "_lte")) then some (parseIntJS (qstr q (field ++ "_lte"))) else none)

/-- The `price` range object, with `parseFloat`. -/
def filterRangeFloat (q : List (String × String)) (field : String) : FilterVal :=
  FilterVal.fnumRange
    (if truthyS (qget q (field ++ "_gte")) then some (parseFloatJS (qstr q (field ++ "_gte"))) else none)
    (if truthyS (qget q (field ++ "_lte")) then some (parseFloatJS (qstr q (field ++ "_lte"))) else none)

/-- The body of `parseFilters`' `allowedFilters.forEach(field => ...)`:
everything is guarded by `if (query[field])`, then `publishedYear` and
`price` get the range treatment and every other field becomes an exact
string match. -/
def filterStep (q : List (String × String)) (filters : List (String × FilterVal))
    (field : String) : List (String × FilterVal) :=
  if truthyS (qget q field) then
    if field = "publishedYear" then
      if truthyS (qget q (field ++ "_gte")) || truthyS (qget q (field ++ "_lte")) then
        jsAssign filters field (filterRangeInt q field)
      else jsAssign filters field (FilterVal.num (parseIntJS (qstr q field)))
    else if field = "price" then
      if truthyS (qget q (field ++ "_gte")) || truthyS (qget q (field ++ "_lte")) then
        jsAssign filters field (filterRangeFloat q field)
      else jsAssign filters field (FilterVal.fnum (parseFloatJS (qstr q field)))
    else jsAssign filters field (FilterVal.str (qstr q field))
  else filters

/-- `parseFilters(query, allowedFilters)` from `helpers.js`. -/
def parseFilters (q : List (String × String)) (allowedFilters : List String) :
    List (String × FilterVal) :=
  allowedFilters.foldl (filterStep q) []

/-- `buildSearchQuery(searchTerm)` from `helpers.js`: a falsy term yields
the empty query `{}` (here `none`); a non-empty term yields the `$or` of
case-insensitive matches, represented by the term itself. -/
def buildSearchQuery (searchTerm : Option String) : Option String :=
  match searchTerm with
  | none => none
  | some t => if t = "" then none else some t

/-! ### `ApiError` (`src/utils/ApiError.js`) -/

/-- An operational API error: HTTP status code plus message. -/
structure ApiErr where
  statusCode : Nat
  message : String
  deriving Repr, DecidableEq

def ApiErr.badRequest (m : String) : ApiErr := ⟨400, m⟩
def ApiErr.unauthorized (m : String) : ApiErr := ⟨401, m⟩
def ApiErr.notFound (m : String) : ApiErr := ⟨404, m⟩
def ApiErr.conflict (m : String) : ApiErr := ⟨409, m⟩
def ApiErr.validationError (m : String) : ApiErr := ⟨422, m⟩
def ApiErr.internal (m : String) : ApiErr := ⟨500, m⟩

/-! ### The Book record and schema (`src/models/Book.js`) -/

/-- A persisted book document.  Timestamps are integer instants; the id is
the store-assigned ObjectId string. -/
structure BookRec where
  id : String
  title : String
  author : String
  genre : String
  publishedYear : Int
  isbn : String
  description : String
  price : DecNum
  stock : Int
  status : String
  createdAt : Int
  updatedAt : Int
  deriving Repr, DecidableEq

/-- `isbn.replace(/[-\s]/g, '')`: drop hyphens and whitespace. -/
def cleanIsbn (s : String) : String :=
  ⟨s.data.filter (fun c => !(c = '-' || jsSpace c))⟩

/-- A hexadecimal digit. -/
def isHexChar (c : Char) : Bool :=
  c.isDigit || ('a' ≤ c && c ≤ 'f') || ('A' ≤ c && c ≤ 'F')

/-- A well-formed MongoDB ObjectId string: 24 hex characters.  (Mongoose
casts any other string to a `CastError` before the store is queried.) -/
def isValidObjectId (s : String) : Bool :=
  s.data.length = 24 && s.data.all isHexChar

/-- The 19 genres of the Book schema's enum. -/
def bookGenres : List String :=
  ["Fiction", "Non-Fiction", "Mystery", "Romance", "Science Fiction", "Fantasy",
   "Biography", "History", "Self-Help", "Business", "Children", "Young Adult",
   "Poetry", "Drama", "Horror", "Thriller", "Comedy", "Adventure", "Other"]

/-- The schema's ISBN-10 pattern `/^(?:\d{9}X|\d{10})$/` on the cleaned
character list. -/
def isbn10Ok (c : List Char) : Bool :=
  c.length = 10 && (c.take 9).all Char.isDigit &&
    (match c.get? 9 with
     | some d => d = 'X' || d.isDigit
     | none => false)

/-- The schema's ISBN-13 pattern `/^(?:97[89]\d{10})$/` on the cleaned
character list. -/
def isbn13Ok (c : List Char) : Bool :=
  c.length = 13 && c.all Char.isDigit &&
    (c.take 3 = ['9', '7', '8'] || c.take 3 = ['9', '7', '9'])

/-- The schema's ISBN validator: clean the value, accept ISBN-10 or
ISBN-13 shapes. -/
def isbnShapeOk (v : String) : Bool :=
  isbn10Ok (cleanIsbn v).data || isbn13Ok (cleanIsbn v).data

/-- Incoming book data, as the service receives it from the request body.
`none` models an absent (`undefined`) field.  Numeric fields arrive as
JSON numbers. -/
structure BookData where
  title : Option String := none
  author : Option String := none
  genre : Option String := none
  publishedYear : Option Int := none
  isbn : Option String := none
  description : Option String := none
  price : Option DecNum := none
  stock : Option Int := none
  status : Option String := none
  deriving Repr, DecidableEq

/-- Mongoose schema validation of a new Book document (fields already
passed through the schema's `trim` setters), returning the violation
messages.  `currentYear` parameterises the schema's
`max: new Date().getFullYear() + 1` bound. -/
def validateBook (currentYear : Int) (d : BookData) : List String :=
  (match d.title with
   | none => ["Title is required"]
   | some t =>
     let t := jsTrim t
     (if t = "" then ["Title is required"] else []) ++
     (if t.data.length > 200 then ["Title cannot exceed 200 characters"] else [])) ++
  (match d.author with
   | none => ["Author is required"]
   | some a =>
     let a := jsTrim a
     (if a = "" then ["Author is required"] else []) ++
     (if a.data.length > 100 then ["Author cannot exceed 100 characters"] else [])) ++
  (match d.genre with
   | none => ["Genre is required"]
   | some g =>
     let g := jsTrim g
     if g = "" then ["Genre is required"]
     else if bookGenres.contains g then [] else [g ++ " is not a valid genre"]) ++
  (match d.publishedYear with
   | none => ["Published year is required"]
   | some y =>
     (if y < 1000 then ["Published year must be at least 1000"] else []) ++
     (if y > currentYear + 1 then ["Published year cannot be in the future"] else [])) ++
  (match d.isbn with
   | none => ["ISBN is required"]
   | some i =>
     let i := jsTrim i
     if i = "" then ["ISBN is required"]
     else if isbnShapeOk i then []
     else ["Invalid ISBN format. Please provide a valid ISBN-10 or ISBN-13"]) ++
  (match d.description with
   | none => []
   | some de =>
     if (jsTrim de).data.length > 2000 then ["Description cannot exceed 2000 characters"] else []) ++
  (match d.price with
   | none => []
   | some p => if DecNum.le ⟨0, 0⟩ p then [] else ["Price cannot be negative"]) ++
  (match d.stock with
   | none => []
   | some st => if st < 0 then ["Stock cannot be negative"] else []) ++
  (match d.status with
   | none => []
   | some s =>
     if s = "active" || s = "inactive" || s = "discontinued" then []
     else [s ++ " is not a valid status"])

/-- `new Book(bookData).save()`: validate against the schema; on success
apply the schema defaults (`description ''`, `price 0`, `stock 0`,
`status 'active'`), run the pre-save hook that normalizes the isbn, assign
the store id and timestamps, and append the document. -/
def bookSave (currentYear : Int) (newId : String) (now : Int)
    (store : List BookRec) (d : BookData) :
    Except (List String) (List BookRec × BookRec) :=
  let errs := validateBook currentYear d
  if errs.isEmpty then
    let newBook : BookRec :=
      { id := newId
        title := jsTrim (d.title.getD "")
        author := jsTrim (d.author.getD "")
        genre := jsTrim (d.genre.getD "")
        publishedYear := d.publishedYear.getD 0
        isbn := cleanIsbn (jsTrim (d.isbn.getD ""))
        description := jsTrim (d.description.getD "")
        price := d.price.getD ⟨0, 0⟩
        stock := d.stock.getD 0
        status := d.status.getD "active"
        createdAt := now
        updatedAt := now }
    Except.ok (store ++ [newBook], newBook)
  else Except.error errs

/-! ### `BookService` (`src/services/bookService.js`) -/

/-- `getBookById(bookId)`: `findById` casts the id first (a malformed id
raises `CastError`, remapped to BadRequest), then the store is consulted;
a missing record is NotFound. -/
def getBookById (store : List BookRec) (bookId : String) : Except ApiErr BookRec :=
  if !(isValidObjectId bookId) then Except.error (ApiErr.badRequest "Invalid book ID format")
  else
    match store.find? (fun b => b.id = bookId) with
    | none => Except.error (ApiErr.notFound "Book not found")
    | some b => Except.ok b

/-- `getBookByIsbn(isbn)`: normalize the isbn, then `findOne` on the
(normalized) stored isbn. -/
def getBookByIsbn (store : List BookRec) (isbn : String) : Except ApiErr BookRec :=
  match store.find? (fun b => b.isbn = cleanIsbn isbn) with
  | none => Except.error (ApiErr.notFound "Book not found")
  | some b => Except.ok b

/-- The faults that can escape the `try` block of `createBook`. -/
inductive CreateFault where
  | typeFault (msg : String)
  | validationFault (msgs : List String)
  | apiFault (e : ApiErr)
  deriving Repr, DecidableEq

/-- Join messages with `', '`, as `validationErrors.join(', ')`. -/
def joinComma : List String → String
  | [] => ""
  | [s] => s
  | s :: rest => s ++ ", " ++ joinComma rest

/-- The `try` block of `createBook`: reading `bookData.isbn.replace`
throws a `TypeError` when `isbn` is `undefined`; otherwise the duplicate
pre-check runs against the normalized isbn and then the document is
saved. -/
def createBookTry (currentYear : Int) (newId : String) (now : Int)
    (store : List BookRec) (d : BookData) :
    Except CreateFault (List BookRec × BookRec) :=
  match d.isbn with
  | none => Except.error (CreateFault.typeFault
      "Cannot read properties of undefined (reading 'replace')")
  | some isbnStr =>
    match store.find? (fun b => b.isbn = cleanIsbn isbnStr) with
    | some _ => Except.error (CreateFault.apiFault
        (ApiErr.conflict "A book with this ISBN already exists"))
    | none =>
      match bookSave currentYear newId now store d with
      | Except.error msgs => Except.error (CreateFault.validationFault msgs)
      | Except.ok r => Except.ok r

/-- `createBook(bookData)` with its `catch` chain: `ApiError`s pass
through, mongoose `ValidationError`s become 422, anything else (such as
the `TypeError` from a missing isbn) becomes a wrapped 500.  The first
component is the store after the call. -/
def createBook (currentYear : Int) (newId : String) (now : Int)
    (store : List BookRec) (d : BookData) :
    List BookRec × Except ApiErr BookRec :=
  match createBookTry currentYear newId now store d with
  | Except.ok (store', b) => (store', Except.ok b)
  | Except.error (CreateFault.apiFault e) => (store, Except.error e)
  | Except.error (CreateFault.validationFault msgs) =>
      (store, Except.error (ApiErr.validationError (joinComma msgs)))
  | Except.error (CreateFault.typeFault m) =>
      (store, Except.error ⟨500, "Error creating book: " ++ m⟩)

/-- `updateStock(bookId, quantity)`: fetch (with the id cast first),
compute `newStock = stock + quantity`, reject a negative result with
BadRequest before any write, otherwise persist and return the updated
record.  The first component is the store after the call. -/
def updateStock (store : List BookRec) (bookId : String) (quantity : Int) :
    List BookRec × Except ApiErr BookRec :=
  if !(isValidObjectId bookId) then
    (store, Except.error (ApiErr.badRequest "Invalid book ID format"))
  else
    match store.find? (fun b => b.id = bookId) with
    | none => (store, Except.error (ApiErr.notFound "Book not found"))
    | some book =>
      if book.stock + quantity < 0 then
        (store, Except.error (ApiErr.badRequest "Insufficient stock"))
      else
        let updated := { book with stock := book.stock + quantity }
        (store.map (fun b => if b.id = bookId then updated else b), Except.ok updated)

/-- The query parameters of `getAllBooks`, after the destructuring
`const { page, limit, sort, search, ...filterParams } = queryParams`. -/
structure QueryParams where
  page : Option String := none
  limit : Option String := none
  sort : Option String := none
  search : Option String := none
  filterParams : List (String × String) := []

def bookAllowedFilters : List String :=
  ["genre", "author", "status", "publishedYear", "price"]

def bookAllowedSortFields : List String :=
  ["title", "author", "genre", "publishedYear", "price", "createdAt", "updatedAt"]

/-- JS truthiness of a filter value: the empty string, `0` and `NaN` are
falsy; range objects are always truthy. -/
def FilterVal.truthy : FilterVal → Bool
  | .str s => s ≠ ""
  | .num n => match n with | some k => k ≠ 0 | none => false
  | .fnum x => match x with | some q => !(DecNum.eqv q ⟨0, 0⟩) | none => false
  | .numRange _ _ => true
  | .fnumRange _ _ => true

/-- The effective filter object of `getAllBooks`: the parsed filters, with
`status` defaulted to `'active'` when `filters.status` is falsy. -/
def effectiveFilters (qp : QueryParams) : List (String × FilterVal) :=
  let filters := parseFilters qp.filterParams bookAllowedFilters
  match qget filters "status" with
  | some v => if v.truthy then filters else jsAssign filters "status" (FilterVal.str "active")
  | none => jsAssign filters "status" (FilterVal.str "active")

/-- Evaluate an optional exact-string constraint against a string field. -/
def fvMatchStr : Option FilterVal → String → Bool
  | none, _ => true
  | some (.str s), v => v = s
  | some _, _ => false

/-- Evaluate an optional numeric constraint (exact or `$gte`/`$lte` range)
against an integer field.  A `NaN` value or bound matches nothing (no
claim exercises `NaN` here). -/
def fvMatchInt : Option FilterVal → Int → Bool
  | none, _ => true
  | some (.num (some n)), v => v = n
  | some (.num none), _ => false
  | some (.numRange g l), v =>
      (match g with | none => true | some (some a) => a ≤ v | some none => false) &&
      (match l with | none => true | some (some c) => v ≤ c | some none => false)
  | some _, _ => false

/-- Evaluate an optional decimal constraint against a price field. -/
def fvMatchDec : Option FilterVal → DecNum → Bool
  | none, _ => true
  | some (.fnum (some n)), v => DecNum.eqv v n
  | some (.fnum none), _ => false
  | some (.fnumRange g l), v =>
      (match g with | none => true | some (some a) => DecNum.le a v | some none => false) &&
      (match l with | none => true | some (some c) => DecNum.le v c | some none => false) &&
      true
  | some _, _ => false

/-- A document satisfies the filter part of the combined Mongo query.  The
query object built by `getAllBooks` only ever carries (a subset of) the
five allow-listed keys, so evaluating it is checking each present key's
constraint against the corresponding field. -/
def matchesFilters (q : List (String × FilterVal)) (b : BookRec) : Bool :=
  fvMatchStr (qget q "genre") b.genre &&
  fvMatchStr (qget q "author") b.author &&
  fvMatchStr (qget q "status") b.status &&
  fvMatchInt (qget q "publishedYear") b.publishedYear &&
  fvMatchDec (qget q "price") b.price

/-- A document satisfies the `$or` search predicate built by
`buildSearchQuery`. -/
def matchesSearch (sq : Option String) (b : BookRec) : Bool :=
  match sq with
  | none => true
  | some t => containsCI b.title t || containsCI b.author t ||
              containsCI b.description t || containsCI b.isbn t

/-- Three-way comparison of integers. -/
def cmpInt (a b : Int) : Ordering :=
  if a < b then Ordering.lt else if b < a then Ordering.gt else Ordering.eq

/-- Three-way lexicographic comparison of char lists. -/
def cmpChars : List Char → List Char → Ordering
  | [], [] => Ordering.eq
  | [], _ :: _ => Ordering.lt
  | _ :: _, [] => Ordering.gt
  | a :: as, b :: bs =>
    if a < b then Ordering.lt else if b < a then Ordering.gt else cmpChars as bs

/-- Compare two documents on one sortable field. -/
def bookFieldCmp (f : String) (a b : BookRec) : Ordering :=
  if f = "title" then cmpChars a.title.data b.title.data
  else if f = "author" then cmpChars a.author.data b.author.data
  else if f = "genre" then cmpChars a.genre.data b.genre.data
  else if f = "publishedYear" then cmpInt a.publishedYear b.publishedYear
  else if f = "price" then cmpInt (a.price.man * (10 : Int) ^ b.price.exp10)
                                  (b.price.man * (10 : Int) ^ a.price.exp10)
  else if f = "createdAt" then cmpInt a.createdAt b.createdAt
  else if f = "updatedAt" then cmpInt a.updatedAt b.updatedAt
  else Ordering.eq

/-- The store's `.sort(sortObj)` order as a boolean "comes no later than":
the first sort key on which the documents differ decides, descending keys
reversed. -/
def sortLeBooks (spec : List (String × Int)) (a b : BookRec) : Bool :=
  match spec with
  | [] => true
  | (f, dir) :: rest =>
    match bookFieldCmp f a b with
    | Ordering.eq => sortLeBooks rest a b
    | Ordering.lt => dir ≥ 0
    | Ordering.gt => dir < 0

/-- Insert into a sorted list, keeping earlier elements first on ties. -/
def insertLe {α : Type} (le : α → α → Bool) (a : α) : List α → List α
  | [] => [a]
  | b :: bs => if le a b then a :: b :: bs else b :: insertLe le a bs

/-- Insertion sort, the embedding's interpretation of the store's sorted
fetch (the claims proved below do not depend on the order that ties take). -/
def insSort {α : Type} (le : α → α → Bool) : List α → List α
  | [] => []
  | a :: as => insertLe le a (insSort le as)

/-- What `getAllBooks` returns: the page of documents, the pagination
descriptor, and the exact filter/search/sort actually applied. -/
structure ListResult where
  books : List BookRec
  pagination : Pagination
  filters : List (String × FilterVal)
  search : Option String
  sort : List (String × Int)

/-- `getAllBooks(queryParams)`: build the filters (defaulting `status` to
`'active'` when none is present), the search predicate and the sort spec;
count the matching documents; compute pagination; fetch the sorted page. -/
def getAllBooks (store : List BookRec) (qp : QueryParams) : ListResult :=
  let filters := effectiveFilters qp
  let searchQuery := buildSearchQuery qp.search
  let sortObj := parseSort qp.sort bookAllowedSortFields
  let matching := store.filter (fun b => matchesFilters filters b && matchesSearch searchQuery b)
  let pagination := calculatePagination qp.page qp.limit matching.length
  { books := ((insSort (sortLeBooks sortObj) matching).drop pagination.skip.toNat).take
      pagination.itemsPerPage.toNat
    pagination := pagination
    filters := filters
    search := searchQuery
    sort := sortObj }

/-! ### The auth controller's `login` (`src/controllers/bookController.js`) -/

/-- A persisted user account (the fields `login` reads). -/
structure UserRec where
  id : String
  username : String
  email : String
  passwordHash : String
  role : String
  isActive : Bool
  lastLogin : Option Int
  deriving Repr, DecidableEq

/-- `AuthController.login`: find the user by email, reject an unknown
email, an inactive account, or a failed password comparison, each with
Unauthorized; on success touch `lastLogin` and return the user.  The
bcrypt comparison `user.comparePassword(password)` is the parameter
`verify` (password first, stored hash second); token issuance is outside
the modelled state.  The first component is the user store after the
call. -/
def login (verify : String → String → Bool) (users : List UserRec)
    (email password : String) (now : Int) :
    List UserRec × Except ApiErr UserRec :=
  match users.find? (fun u => u.email = email) with
  | none => (users, Except.error (ApiErr.unauthorized "Invalid email or password"))
  | some user =>
    if !user.isActive then (users, Except.error (ApiErr.unauthorized "Account is deactivated"))
    else if !(verify password user.passwordHash) then
      (users, Except.error (ApiErr.unauthorized "Invalid email or password"))
    else
      let u := { user with lastLogin := some now }
      (users.map (fun x => if x.id = user.id then u else x), Except.ok u)

/-! ### `sanitizeRequest` (`src/middlewares/security.js`) -/

/-- The opening-brace character, written by code point. -/
def braceL : Char := Char.ofNat 123

/-- The closing-brace character, written by code point. -/
def braceR : Char := Char.ofNat 125

/-- A character removed by the NoSQL-injection filter `/[{}$]/g`. -/
def isInjChar (c : Char) : Bool := c = braceL || c = braceR || c = '$'

/-- `str.replace(/[{}$]/g, '')`: delete every brace and dollar sign. -/
def stripInj (s : String) : String := ⟨s.data.filter (fun c => !(isInjChar c))⟩

mutual
/-- A JSON-like JS value, as found in `req.body` / `req.query` /
`req.params`. -/
inductive JVal where
  | jstr (s : String) : JVal
  | jnum (n : Int) : JVal
  | jbool (b : Bool) : JVal
  | jnull : JVal
  | jobj (fields : JFields) : JVal
  deriving Repr, DecidableEq
/-- The own enumerable properties of a JS object (arrays are objects whose
keys are indices). -/
inductive JFields where
  | nil : JFields
  | cons (k : String) (v : JVal) (rest : JFields) : JFields
  deriving Repr, DecidableEq
end

mutual
/-- What the loop body of `sanitize` does to one property value: a string
is stripped of injection characters, an object (including `null`, whose
recursive call is a no-op thanks to the `obj &&` guard) is recursed into,
anything else is untouched. -/
def sanitizeVal : JVal → JVal
  | .jstr s => .jstr (stripInj s)
  | .jobj fs => .jobj (sanitizeFields fs)
  | v => v
/-- The `for (const key in obj)` loop of `sanitize`, over every own
property. -/
def sanitizeFields : JFields → JFields
  | .nil => .nil
  | .cons k v rest => .cons k (sanitizeVal v) (sanitizeFields rest)
end

/-- The top-level `sanitize(obj)` of `sanitizeRequest`: only an object
passes the `obj && typeof obj === 'object'` guard and has its properties
sanitized; any other value is returned as is. -/
def sanitizeTop : JVal → JVal
  | .jobj fs => .jobj (sanitizeFields fs)
  | v => v

/-- The request shape `sanitizeRequest` rewrites: body, query and params. -/
structure ReqParts where
  body : JVal
  query : JVal
  params : JVal
  deriving Repr, DecidableEq

/-- `sanitizeRequest`: apply `sanitize` to `req.body`, `req.query` and
`req.params` (mounted in `app.js` after body parsing and before every
route handler). -/
def sanitizeRequest (r : ReqParts) : ReqParts :=
  { body := sanitizeTop r.body, query := sanitizeTop r.query, params := sanitizeTop r.params }

mutual
/-- No string property value anywhere inside contains a brace or dollar. -/
def noInjVal : JVal → Bool
  | .jstr s => s.data.all (fun c => !(isInjChar c))
  | .jobj fs => noInjFields fs
  | _ => true
/-- `noInjVal` over every property of an object. -/
def noInjFields : JFields → Bool
  | .nil => true
  | .cons _ v rest => noInjVal v && noInjFields rest
end

/-! ### Spec-side comparison definition for the Sort Parser -/

/-- Modelled from the spec's words for §4.2 (Sort Parser), for refinement
comparison with `parseSort`: keep, in caller order, the tokens whose bare
field name (after trimming and stripping a leading `-`) is in the
allow-list, keeping all of them when the allow-list is empty. -/
def keptTokensL (allowed : List String) : List String → List (String × Int)
  | [] => []
  | f :: rest =>
    if allowed.isEmpty || allowed.contains (sortToken f).1 then
      sortToken f :: keptTokensL allowed rest
    else keptTokensL allowed rest

/-- Modelled from the spec's words for §4.2 (Sort Parser): "split on
comma, trim each token, detect and strip a leading `-` to set direction,
keep only tokens whose bare field name is in the allow-list (or keep all
if the allow-list is empty), preserve caller-specified order". -/
def keptTokens (s : String) (allowedFields : List String) : List (String × Int) :=
  keptTokensL allowedFields (splitComma s)

/-! ### Concrete fixtures used to instantiate the theorems -/

def widA : String := "aaaaaaaaaaaaaaaaaaaaaaaa"

def widB : String := "bbbbbbbbbbbbbbbbbbbbbbbb"

def widC : String := "cccccccccccccccccccccccc"

/-- A stored book with stock 5. -/
def sampleBook : BookRec :=
  { id := widA, title := "The Great Gatsby", author := "F. Scott Fitzgerald",
    genre := "Fiction", publishedYear := 1925, isbn := "9780743273565",
    description := "", price := ⟨0, 0⟩, stock := 5, status := "active",
    createdAt := 7, updatedAt := 7 }

/-- Valid creation data whose isbn carries hyphens. -/
def gatsbyData : BookData :=
  { title := some "The Great Gatsby", author := some "F. Scott Fitzgerald",
    genre := some "Fiction", publishedYear := some 1925,
    isbn := some "978-0-74-327356-5" }

/-- The record `createBook 2025 widA 7 [] gatsbyData` persists. -/
def gatsbyRec : BookRec :=
  { id := widA, title := "The Great Gatsby", author := "F. Scott Fitzgerald",
    genre := "Fiction", publishedYear := 1925, isbn := "9780743273565",
    description := "", price := ⟨0, 0⟩, stock := 0, status := "active",
    createdAt := 7, updatedAt := 7 }

def inactiveBook : BookRec :=
  { gatsbyRec with id := widB, isbn := "9780000000002", status := "inactive" }

def discontinuedBook : BookRec :=
  { gatsbyRec with id := widC, isbn := "9780000000019", status := "discontinued" }

/-- A store holding one book of each status. -/
def sampleStore : List BookRec := [gatsbyRec, inactiveBook, discontinuedBook]

/-- A stored, active user account. -/
def sampleUser : UserRec :=
  { id := widA, username := "alice", email := "alice@example.com",
    passwordHash := "hash1", role := "user", isActive := true, lastLogin := none }

/-! ### Shared lemmas about the association-list object model -/

theorem jsAssign_of_not_mem {α : Type} (o : List (String × α)) (k : String) (v : α)
    (h : o.any (fun p => p.1 = k) = false) : jsAssign o k v = o ++ [(k, v)] := by
  simp [jsAssign, h]

theorem mem_jsAssign {α : Type} (o : List (String × α)) (k : String) (v : α)
    (p : String × α) (h : p ∈ jsAssign o k v) : p ∈ o ∨ p = (k, v) := by
  unfold jsAssign at h
  by_cases ha : o.any (fun q => q.1 = k) = true
  · rw [if_pos ha] at h
    rcases List.mem_map.mp h with ⟨q, hq, hmap⟩
    by_cases hk : q.1 = k
    · rw [if_pos hk] at hmap
      exact Or.inr hmap.symm
    · rw [if_neg hk] at hmap
      exact Or.inl (hmap ▸ hq)
  · rw [if_neg ha] at h
    rcases List.mem_append.mp h with h1 | h1
    · exact Or.inl h1
    · exact Or.inr (List.mem_singleton.mp h1)

theorem qget_cons_of_pos {α : Type} {k : String} (p : String × α) (l : List (String × α))
    (h : p.1 = k) : qget (p :: l) k = some p.2 := by
  unfold qget
  rw [List.find?_cons_of_pos _ (by simpa using h)]
  rfl

theorem qget_cons_of_neg {α : Type} {k : String} (p : String × α) (l : List (String × α))
    (h : ¬ p.1 = k) : qget (p :: l) k = qget l k := by
  unfold qget
  rw [List.find?_cons_of_neg _ (by simpa using h)]

theorem qget_overwrite {α : Type} (k : String) (v : α) :
    ∀ o : List (String × α), o.any (fun p => p.1 = k) = true →
      qget (o.map (fun p => if p.1 = k then (k, v) else p)) k = some v := by
  intro o
  induction o with
  | nil => intro h; simp at h
  | cons p ps ih =>
    intro h
    by_cases hp : p.1 = k
    · rw [List.map_cons, if_pos hp, qget_cons_of_pos (k, v) _ rfl]
    · have h2 : ps.any (fun q => q.1 = k) = true := by
        simp only [List.any_cons, Bool.or_eq_true] at h
        rcases h with h | h
        · exact absurd (by simpa using h) hp
        · exact h
      rw [List.map_cons, if_neg hp, qget_cons_of_neg p _ hp]
      exact ih h2

theorem qget_append_fresh {α : Type} (k : String) (v : α) :
    ∀ o : List (String × α), o.any (fun p => p.1 = k) = false →
      qget (o ++ [(k, v)]) k = some v := by
  intro o
  induction o with
  | nil => intro _; exact qget_cons_of_pos (k, v) [] rfl
  | cons p ps ih =>
    intro h
    simp only [List.any_cons, Bool.or_eq_false_iff] at h
    have hp : ¬ p.1 = k := by simpa using h.1
    rw [List.cons_append, qget_cons_of_neg p _ hp]
    exact ih h.2

theorem qget_jsAssign_self {α : Type} (o : List (String × α)) (k : String) (v : α) :
    qget (jsAssign o k v) k = some v := by
  unfold jsAssign
  by_cases ha : o.any (fun p => p.1 = k) = true
  · rw [if_pos ha]
    exact qget_overwrite k v o ha
  · rw [if_neg ha]
    exact qget_append_fresh k v o (Bool.not_eq_true _ |>.mp ha)

theorem qget_map_assign_ne {α : Type} (k k2 : String) (v : α) (hne : k ≠ k2) :
    ∀ o : List (String × α),
      qget (o.map (fun p => if p.1 = k then (k, v) else p)) k2 = qget o k2 := by
  intro o
  induction o with
  | nil => rfl
  | cons p ps ih =>
    by_cases hp : p.1 = k
    · rw [List.map_cons, if_pos hp, qget_cons_of_neg (k, v) _ hne,
          qget_cons_of_neg p _ (by rw [hp]; exact hne)]
      exact ih
    · rw [List.map_cons, if_neg hp]
      by_cases hp2 : p.1 = k2
      · rw [qget_cons_of_pos p _ hp2, qget_cons_of_pos p _ hp2]
      · rw [qget_cons_of_neg p _ hp2, qget_cons_of_neg p _ hp2]
        exact ih

theorem qget_append_single_ne {α : Type} (k k2 : String) (v : α) (hne : k ≠ k2) :
    ∀ o : List (String × α), qget (o ++ [(k, v)]) k2 = qget o k2 := by
  intro o
  induction o with
  | nil =>
    simp only [List.nil_append]
    rw [qget_cons_of_neg (k, v) [] hne]
  | cons p ps ih =>
    by_cases hp2 : p.1 = k2
    · rw [List.cons_append, qget_cons_of_pos p _ hp2, qget_cons_of_pos p _ hp2]
    · rw [List.cons_append, qget_cons_of_neg p _ hp2, qget_cons_of_neg p _ hp2]
      exact ih

theorem qget_jsAssign_ne {α : Type} (o : List (String × α)) (k k2 : String) (v : α)
    (hne : k ≠ k2) : qget (jsAssign o k v) k2 = qget o k2 := by
  unfold jsAssign
  by_cases ha : o.any (fun p => p.1 = k) = true
  · rw [if_pos ha]
    exact qget_map_assign_ne k k2 v hne o
  · rw [if_neg ha]
    exact qget_append_single_ne k k2 v hne o

theorem find?_append_right {α : Type} (p : α → Bool) (l : List α) (a : α)
    (hl : l.find? p = none) (ha : p a = true) : (l ++ [a]).find? p = some a := by
  induction l with
  | nil =>
    rw [List.nil_append, List.find?_cons_of_pos _ ha]
  | cons b bs ih =>
    have hb : ¬ p b = true := by
      intro hb
      rw [List.find?_cons_of_pos _ hb] at hl
      exact Option.noConfusion hl
    rw [List.find?_cons_of_neg _ hb] at hl
    rw [List.cons_append, List.find?_cons_of_neg _ hb]
    exact ih hl

/-! ### Lemmas about `parseFilters` and the effective filter of `getAllBooks` -/

theorem filterStep_skip (q : List (String × String)) (o : List (String × FilterVal))
    (f : String) (h : truthyS (qget q f) = false) : filterStep q o f = o := by
  simp [filterStep, h]

theorem qget_filterStep_ne (q : List (String × String)) (o : List (String × FilterVal))
    (f k : String) (hne : f ≠ k) : qget (filterStep q o f) k = qget o k := by
  unfold filterStep
  by_cases h1 : truthyS (qget q f) = true
  · rw [if_pos h1]
    by_cases h2 : f = "publishedYear"
    · rw [if_pos h2]
      by_cases h3 : (truthyS (qget q (f ++ "_gte")) || truthyS (qget q (f ++ "_lte"))) = true
      · rw [if_pos h3]; exact qget_jsAssign_ne o f k _ hne
      · rw [if_neg h3]; exact qget_jsAssign_ne o f k _ hne
    · rw [if_neg h2]
      by_cases h4 : f = "price"
      · rw [if_pos h4]
        by_cases h3 : (truthyS (qget q (f ++ "_gte")) || truthyS (qget q (f ++ "_lte"))) = true
        · rw [if_pos h3]; exact qget_jsAssign_ne o f k _ hne
        · rw [if_neg h3]; exact qget_jsAssign_ne o f k _ hne
      · rw [if_neg h4]; exact qget_jsAssign_ne o f k _ hne
  · rw [if_neg h1]

/-- Reading `status` off the parsed filters: it is the exact-match string
filter when the query's `status` is truthy, and absent otherwise. -/
theorem qget_parseFilters_status (q : List (String × String)) :
    qget (parseFilters q bookAllowedFilters) "status" =
      (if truthyS (qget q "status") then some (FilterVal.str (qstr q "status")) else none) := by
  show qget (filterStep q (filterStep q (filterStep q (filterStep q (filterStep q [] "genre")
      "author") "status") "publishedYear") "price") "status" = _
  rw [qget_filterStep_ne _ _ "price" "status" (by decide),
      qget_filterStep_ne _ _ "publishedYear" "status" (by decide)]
  by_cases h : truthyS (qget q "status") = true
  · rw [if_pos h]
    unfold filterStep
    rw [if_pos h, if_neg (by decide : ¬ ("status" : String) = "publishedYear"),
        if_neg (by decide : ¬ ("status" : String) = "price")]
    exact qget_jsAssign_self _ "status" _
  · rw [if_neg h]
    rw [filterStep_skip _ _ "status" (Bool.not_eq_true _ |>.mp h),
        qget_filterStep_ne _ _ "author" "status" (by decide),
        qget_filterStep_ne _ _ "genre" "status" (by decide)]
    rfl

/-- Reading `status` off the effective filter: the supplied truthy value,
or the `'active'` default. -/
theorem qget_effectiveFilters_status (qp : QueryParams) :
    qget (effectiveFilters qp) "status" =
      (if truthyS (qget qp.filterParams "status")
       then some (FilterVal.str (qstr qp.filterParams "status"))
       else some (FilterVal.str "active")) := by
  have hpf := qget_parseFilters_status qp.filterParams
  by_cases h : truthyS (qget qp.filterParams "status") = true
  · rw [if_pos h] at hpf ⊢
    cases hq : qget qp.filterParams "status" with
    | none => rw [hq] at h; simp [truthyS] at h
    | some s =>
      have hs : s ≠ "" := by rw [hq] at h; simpa [truthyS] using h
      have hqs : qstr qp.filterParams "status" = s := by simp [qstr, hq]
      rw [hqs] at hpf ⊢
      simp only [effectiveFilters, hpf]
      rw [if_pos (by simpa [FilterVal.truthy] using hs)]
      exact hpf
  · rw [if_neg h] at hpf ⊢
    simp only [effectiveFilters, hpf]
    exact qget_jsAssign_self _ "status" _

/-! ### Membership through the sorted, paginated fetch -/

theorem mem_insertLe {α : Type} (le : α → α → Bool) (a x : α) (l : List α) :
    x ∈ insertLe le a l → x = a ∨ x ∈ l := by
  induction l with
  | nil =>
    intro h
    rw [insertLe] at h
    exact Or.inl (List.mem_singleton.mp h)
  | cons b bs ih =>
    intro h
    cases hc : le a b with
    | true =>
      simp only [insertLe, hc, if_true] at h
      rcases List.mem_cons.mp h with h1 | h1
      · exact Or.inl h1
      · exact Or.inr h1
    | false =>
      simp only [insertLe, hc, Bool.false_eq_true, if_false] at h
      rcases List.mem_cons.mp h with h1 | h1
      · exact Or.inr (h1 ▸ List.mem_cons_self b bs)
      · rcases ih h1 with h2 | h2
        · exact Or.inl h2
        · exact Or.inr (List.mem_cons_of_mem b h2)

theorem mem_insSort {α : Type} (le : α → α → Bool) (x : α) (l : List α) :
    x ∈ insSort le l → x ∈ l := by
  induction l with
  | nil => intro h; simp [insSort] at h
  | cons a as ih =>
    intro h
    rcases mem_insertLe le a x _ h with h1 | h1
    · simp [h1]
    · exact List.mem_cons_of_mem a (ih h1)

/-- Any document on the returned page satisfies the combined query. -/
theorem getAllBooks_mem_matches (store : List BookRec) (qp : QueryParams) (b : BookRec)
    (hb : b ∈ (getAllBooks store qp).books) :
    matchesFilters (effectiveFilters qp) b = true ∧
    matchesSearch (buildSearchQuery qp.search) b = true := by
  have h1 : b ∈ store.filter (fun x =>
      matchesFilters (effectiveFilters qp) x && matchesSearch (buildSearchQuery qp.search) x) := by
    simp only [getAllBooks] at hb
    exact mem_insSort _ _ _ (List.mem_of_mem_drop (List.mem_of_mem_take hb))
  have h2 := List.of_mem_filter h1
  exact ⟨(Bool.and_eq_true _ _ |>.mp h2).1, (Bool.and_eq_true _ _ |>.mp h2).2⟩

/-- If the effective filter pins `status` to an exact string, every
matching document carries that status. -/
theorem matchesFilters_status (q : List (String × FilterVal)) (b : BookRec) (s : String)
    (hq : qget q "status" = some (FilterVal.str s))
    (hm : matchesFilters q b = true) : b.status = s := by
  unfold matchesFilters at hm
  rw [hq] at hm
  have h1234 := (Bool.and_eq_true _ _ |>.mp hm).1
  have h123 := (Bool.and_eq_true _ _ |>.mp h1234).1
  have h3 := (Bool.and_eq_true _ _ |>.mp h123).2
  simpa [fvMatchStr] using h3

/-! ### Lemmas about the sort-object fold of `parseSort` -/

/-- When the kept field names are pairwise distinct, the JS-object fold is
plain concatenation: each assignment hits a fresh key and appends. -/
theorem sortFold_eq (allowed : List String) :
    ∀ (toks : List String) (acc : List (String × Int)),
      ((acc ++ keptTokensL allowed toks).map Prod.fst).Nodup →
      toks.foldl (sortStep allowed) acc = acc ++ keptTokensL allowed toks := by
  intro toks
  induction toks with
  | nil => intro acc _; simp [keptTokensL]
  | cons t ts ih =>
    intro acc hnd
    by_cases hk : (allowed.isEmpty || allowed.contains (sortToken t).1) = true
    · have hkept : keptTokensL allowed (t :: ts) = sortToken t :: keptTokensL allowed ts := by
        rw [keptTokensL, if_pos hk]
      rw [hkept] at hnd
      have hfresh : acc.any (fun p => p.1 = (sortToken t).1) = false := by
        by_contra hc
        have hc2 : acc.any (fun p => p.1 = (sortToken t).1) = true :=
          Bool.not_eq_false _ |>.mp hc
        rcases List.any_eq_true.mp hc2 with ⟨p, hp, hpk⟩
        have hpk2 : p.1 = (sortToken t).1 := by simpa using hpk
        have hmem1 : (sortToken t).1 ∈ acc.map Prod.fst :=
          hpk2 ▸ List.mem_map_of_mem Prod.fst hp
        have hnd2 := hnd
        rw [List.map_append, List.map_cons] at hnd2
        have hdisj := (List.nodup_append.mp hnd2).2.2
        exact hdisj hmem1 (List.mem_cons_self _ _)
      have hstep : sortStep allowed acc t = acc ++ [sortToken t] := by
        unfold sortStep
        rw [if_pos hk]
        exact jsAssign_of_not_mem acc _ _ hfresh
      rw [List.foldl_cons, hstep, hkept]
      have hnd3 : (((acc ++ [sortToken t]) ++ keptTokensL allowed ts).map Prod.fst).Nodup := by
        rw [List.append_assoc]
        exact hnd
      rw [ih (acc ++ [sortToken t]) hnd3, List.append_assoc]
      rfl
    · have hkept : keptTokensL allowed (t :: ts) = keptTokensL allowed ts := by
        rw [keptTokensL, if_neg hk]
      rw [hkept] at hnd
      have hstep : sortStep allowed acc t = acc := by
        unfold sortStep
        rw [if_neg hk]
      rw [List.foldl_cons, hstep, hkept]
      exact ih acc hnd

/-- Whatever the fold produces comes from the accumulator or from a kept
token. -/
theorem sortFold_mem (allowed : List String) :
    ∀ (toks : List String) (acc : List (String × Int)) (p : String × Int),
      p ∈ toks.foldl (sortStep allowed) acc → p ∈ acc ∨ p ∈ keptTokensL allowed toks := by
  intro toks
  induction toks with
  | nil => intro acc p h; exact Or.inl h
  | cons t ts ih =>
    intro acc p h
    rw [List.foldl_cons] at h
    rcases ih (sortStep allowed acc t) p h with h1 | h1
    · unfold sortStep at h1
      by_cases hk : (allowed.isEmpty || allowed.contains (sortToken t).1) = true
      · rw [if_pos hk] at h1
        rcases mem_jsAssign acc _ _ p h1 with h2 | h2
        · exact Or.inl h2
        · refine Or.inr ?_
          rw [keptTokensL, if_pos hk]
          exact h2 ▸ List.mem_cons_self _ _
      · rw [if_neg hk] at h1
        exact Or.inl h1
    · refine Or.inr ?_
      have hsub : keptTokensL allowed ts ⊆ keptTokensL allowed (t :: ts) := by
        intro x hx
        by_cases hk2 : (allowed.isEmpty || allowed.contains (sortToken t).1) = true
        · rw [keptTokensL, if_pos hk2]
          exact List.mem_cons_of_mem _ hx
        · rw [keptTokensL, if_neg hk2]
          exact hx
      exact hsub h1

/-! ### Isbn normalization commutes with trimming -/

theorem filter_dropWhile_of_excluded (p q : Char → Bool) (h : ∀ c, q c = true → p c = false) :
    ∀ cs : List Char, (cs.dropWhile q).filter p = cs.filter p := by
  intro cs
  induction cs with
  | nil => rfl
  | cons c cs' ih =>
    by_cases hq : q c = true
    · rw [List.dropWhile_cons_of_pos (by simpa using hq), ih,
          List.filter_cons_of_neg (by simp [h c hq])]
    · rw [List.dropWhile_cons_of_neg (by simpa using hq)]

theorem filter_trimList_of_excluded (p : Char → Bool) (h : ∀ c, jsSpace c = true → p c = false) :
    ∀ cs : List Char, (trimList cs).filter p = cs.filter p := by
  intro cs
  unfold trimList
  rw [List.filter_reverse, filter_dropWhile_of_excluded p jsSpace h,
      List.filter_reverse, List.reverse_reverse,
      filter_dropWhile_of_excluded p jsSpace h]

/-- Normalizing an isbn ignores the schema's `trim` setter. -/
theorem cleanIsbn_jsTrim (s : String) : cleanIsbn (jsTrim s) = cleanIsbn s := by
  unfold cleanIsbn jsTrim
  have h : ∀ c, jsSpace c = true → (!(c = '-' || jsSpace c)) = false := by
    intro c hc
    simp [hc]
  exact congrArg String.mk (filter_trimList_of_excluded _ h s.data)

/-! ### The sanitizer leaves no injection characters behind -/

theorem all_filter_self (p : Char → Bool) (l : List Char) : (l.filter p).all p = true := by
  induction l with
  | nil => rfl
  | cons a l ih =>
    by_cases hp : p a = true
    · rw [List.filter_cons_of_pos (by simpa using hp)]
      simp [List.all_cons, hp, ih]
    · rw [List.filter_cons_of_neg (by simpa using hp)]
      exact ih

mutual
theorem noInj_sanitizeVal : (v : JVal) → noInjVal (sanitizeVal v) = true
  | .jstr s => by
    show (stripInj s).data.all (fun c => !(isInjChar c)) = true
    exact all_filter_self _ s.data
  | .jobj fs => by
    show noInjFields (sanitizeFields fs) = true
    exact noInj_sanitizeFields fs
  | .jnum _ => rfl
  | .jbool _ => rfl
  | .jnull => rfl
theorem noInj_sanitizeFields : (fs : JFields) → noInjFields (sanitizeFields fs) = true
  | .nil => rfl
  | .cons k v rest => by
    show (noInjVal (sanitizeVal v) && noInjFields (sanitizeFields rest)) = true
    rw [noInj_sanitizeVal v, noInj_sanitizeFields rest]
    rfl
end

/-! ### The claims -/

/-- C1: the claim says a query containing only `publishedYear_gte` /
`publishedYear_lte` / `price_gte` / `price_lte` (without the bare field
key) still yields the corresponding bound.  In the code the whole range
branch sits under `if (query[field])`, so a suffix-only query yields no
filter at all; a bound is produced only when the bare key is also truthy,
in which case the bare key's own value is discarded. -/
theorem parseFilters_suffix_only_yields_nothing :
    parseFilters [("publishedYear_gte", "2000")] bookAllowedFilters = [] ∧
    parseFilters [("price_lte", "20")] bookAllowedFilters = [] ∧
    parseFilters [("publishedYear", "1990"), ("publishedYear_gte", "1980")] bookAllowedFilters =
      [("publishedYear", FilterVal.numRange (some (some 1980)) none)] := by
  decide

/-- C2 counterexample: a negative limit parses to a number strictly below
1, yet `itemsPerPage` resolves to 1 (the `Math.max(1, ...)` clamp), not to
the default 10 the claim asserts. -/
theorem calculatePagination_negative_limit_cex :
    parseIntJS "-5" = some (-5) ∧ ((-5 : Int) < 1) ∧
    (calculatePagination none (some "-5") 50).itemsPerPage = 1 ∧
    ¬ (calculatePagination none (some "-5") 50).itemsPerPage = 10 := by
  decide

/-- C2 amended: `itemsPerPage` is 100 when the parsed limit exceeds 100,
10 when the limit is absent, non-numeric or parses to 0, 1 (not 10) when
the parsed limit is negative, and the parsed limit itself between 1 and
100. -/
theorem calculatePagination_itemsPerPage_amended (page limit : Option String) (t : Nat) :
    (limit.bind parseIntJS = none → (calculatePagination page limit t).itemsPerPage = 10) ∧
    (∀ n : Int, limit.bind parseIntJS = some n →
      ((n = 0 → (calculatePagination page limit t).itemsPerPage = 10) ∧
       (n < 0 → (calculatePagination page limit t).itemsPerPage = 1) ∧
       (1 ≤ n → n ≤ 100 → (calculatePagination page limit t).itemsPerPage = n) ∧
       (100 < n → (calculatePagination page limit t).itemsPerPage = 100))) := by
  constructor
  · intro h
    simp only [calculatePagination, h, jsOrDefault]
    decide
  · intro n h
    refine ⟨?_, ?_, ?_, ?_⟩
    · intro h0
      simp only [calculatePagination, h, jsOrDefault, if_pos h0]
      decide
    · intro h0
      simp only [calculatePagination, h, jsOrDefault, if_neg (by omega : ¬ n = 0)]
      omega
    · intro h1 h2
      simp only [calculatePagination, h, jsOrDefault, if_neg (by omega : ¬ n = 0)]
      omega
    · intro h0
      simp only [calculatePagination, h, jsOrDefault, if_neg (by omega : ¬ n = 0)]
      omega

/-- C2 witness: the amended clamp at concrete limits 200, 50, -5, 0 and
absent. -/
theorem calculatePagination_itemsPerPage_amended_witness :
    (calculatePagination none (some "200") 0).itemsPerPage = 100 ∧
    (calculatePagination none (some "50") 0).itemsPerPage = 50 ∧
    (calculatePagination none (some "-5") 0).itemsPerPage = 1 ∧
    (calculatePagination none (some "0") 0).itemsPerPage = 10 ∧
    (calculatePagination none none 0).itemsPerPage = 10 :=
  ⟨(((calculatePagination_itemsPerPage_amended none (some "200") 0).2 200 (by decide)).2.2.2)
      (by decide),
   (((calculatePagination_itemsPerPage_amended none (some "50") 0).2 50 (by decide)).2.2.1)
      (by decide) (by decide),
   (((calculatePagination_itemsPerPage_amended none (some "-5") 0).2 (-5) (by decide)).2.1)
      (by decide),
   (((calculatePagination_itemsPerPage_amended none (some "0") 0).2 0 (by decide)).1)
      (by decide),
   (calculatePagination_itemsPerPage_amended none none 0).1 (by decide)⟩

/-- C3: for a stored book with stock `s` and any signed delta `q`,
`updateStock` fails with BadRequest and leaves the store untouched when
`s + q < 0`, and otherwise persists `s + q` and returns the updated
record. -/
theorem updateStock_guards_negative_stock (store : List BookRec) (id : String) (q : Int)
    (b : BookRec) (hid : isValidObjectId id = true)
    (hfind : store.find? (fun r => r.id = id) = some b) :
    (b.stock + q < 0 →
       updateStock store id q = (store, Except.error (ApiErr.badRequest "Insufficient stock"))) ∧
    (0 ≤ b.stock + q →
       updateStock store id q =
         (store.map (fun r => if r.id = id then { b with stock := b.stock + q } else r),
          Except.ok { b with stock := b.stock + q })) := by
  have hni : (!(isValidObjectId id)) = false := by rw [hid]; rfl
  constructor
  · intro h
    simp only [updateStock, hni, Bool.false_eq_true, if_false, hfind]
    rw [if_pos h]
  · intro h
    simp only [updateStock, hni, Bool.false_eq_true, if_false, hfind]
    rw [if_neg (by omega)]

/-- C3 witness: on a one-book store with stock 5, a delta of -1000 fails
with BadRequest and changes nothing, while a delta of 3 persists stock
8. -/
theorem updateStock_guards_negative_stock_witness :
    updateStock [sampleBook] widA (-1000) =
      ([sampleBook], Except.error (ApiErr.badRequest "Insufficient stock")) ∧
    updateStock [sampleBook] widA 3 =
      ([sampleBook].map (fun r =>
         if r.id = widA then { sampleBook with stock := sampleBook.stock + 3 } else r),
       Except.ok { sampleBook with stock := sampleBook.stock + 3 }) :=
  ⟨(updateStock_guards_negative_stock [sampleBook] widA (-1000) sampleBook
      (by decide) (by decide)).1 (by decide),
   (updateStock_guards_negative_stock [sampleBook] widA 3 sampleBook
      (by decide) (by decide)).2 (by decide)⟩

/-- C7: `getBookById` returns the exact stored record when the id matches
one, fails with NotFound when the id is well-formed but unmatched, and
fails with BadRequest when the id is malformed — in the malformed case the
result is the same whatever the store holds, i.e. the shape check decides
before any lookup. -/
theorem getBookById_id_shape_first (store : List BookRec) (id : String) :
    (isValidObjectId id = false →
       getBookById store id = Except.error (ApiErr.badRequest "Invalid book ID format") ∧
       ∀ store2 : List BookRec, getBookById store2 id = getBookById store id) ∧
    (∀ b : BookRec, isValidObjectId id = true → store.find? (fun r => r.id = id) = some b →
       getBookById store id = Except.ok b) ∧
    (isValidObjectId id = true → store.find? (fun r => r.id = id) = none →
       getBookById store id = Except.error (ApiErr.notFound "Book not found")) := by
  refine ⟨?_, ?_, ?_⟩
  · intro h
    constructor
    · simp [getBookById, h]
    · intro store2
      simp [getBookById, h]
  · intro b hid hfind
    have hni : (!(isValidObjectId id)) = false := by rw [hid]; rfl
    simp only [getBookById, hni, Bool.false_eq_true, if_false, hfind]
  · intro hid hfind
    have hni : (!(isValidObjectId id)) = false := by rw [hid]; rfl
    simp only [getBookById, hni, Bool.false_eq_true, if_false, hfind]

/-- C7 witness: a malformed id fails with BadRequest on two different
stores alike; a well-formed id hits the record when present and NotFound
when absent. -/
theorem getBookById_id_shape_first_witness :
    getBookById [sampleBook] "not-a-valid-id" =
      Except.error (ApiErr.badRequest "Invalid book ID format") ∧
    getBookById ([] : List BookRec) "not-a-valid-id" = getBookById [sampleBook] "not-a-valid-id" ∧
    getBookById [sampleBook] widA = Except.ok sampleBook ∧
    getBookById [sampleBook] widB = Except.error (ApiErr.notFound "Book not found") :=
  ⟨((getBookById_id_shape_first [sampleBook] "not-a-valid-id").1 (by decide)).1,
   ((getBookById_id_shape_first [sampleBook] "not-a-valid-id").1 (by decide)).2 [],
   (getBookById_id_shape_first [sampleBook] widA).2.1 sampleBook (by decide) (by decide),
   (getBookById_id_shape_first [sampleBook] widB).2.2 (by decide) (by decide)⟩

/-- C8: a login against an email with no account and a login against an
existing active account with a wrong password produce the same
Unauthorized error with the identical message, so the two failures are
indistinguishable to the caller. -/
theorem login_no_account_enumeration (verify : String → String → Bool)
    (users1 users2 : List UserRec) (email1 pw1 email2 pw2 : String) (now1 now2 : Int)
    (u : UserRec)
    (h1 : users1.find? (fun x => x.email = email1) = none)
    (h2 : users2.find? (fun x => x.email = email2) = some u)
    (hact : u.isActive = true)
    (hpw : verify pw2 u.passwordHash = false) :
    (login verify users1 email1 pw1 now1).2 =
      Except.error (ApiErr.unauthorized "Invalid email or password") ∧
    (login verify users2 email2 pw2 now2).2 =
      Except.error (ApiErr.unauthorized "Invalid email or password") ∧
    (login verify users1 email1 pw1 now1).2 = (login verify users2 email2 pw2 now2).2 := by
  have ha : (!u.isActive) = false := by rw [hact]; rfl
  have hv : (!(verify pw2 u.passwordHash)) = true := by rw [hpw]; rfl
  refine ⟨?_, ?_, ?_⟩
  · simp only [login, h1]
  · simp only [login, h2, ha, Bool.false_eq_true, if_false, hv, if_true]
  · simp only [login, h1, h2, ha, Bool.false_eq_true, if_false, hv, if_true]

/-- C8 witness: a store without the email and a store whose user has a
different password hash yield the same error value. -/
theorem login_no_account_enumeration_witness :
    (login (fun p h => p = h) [] "alice@example.com" "pw" 0).2 =
      Except.error (ApiErr.unauthorized "Invalid email or password") ∧
    (login (fun p h => p = h) [sampleUser] "alice@example.com" "wrong" 0).2 =
      Except.error (ApiErr.unauthorized "Invalid email or password") :=
  ⟨(login_no_account_enumeration (fun p h => p = h) [] [sampleUser] "alice@example.com" "pw"
      "alice@example.com" "wrong" 0 0 sampleUser (by decide) (by decide) (by decide)
      (by decide)).1,
   (login_no_account_enumeration (fun p h => p = h) [] [sampleUser] "alice@example.com" "pw"
      "alice@example.com" "wrong" 0 0 sampleUser (by decide) (by decide) (by decide)
      (by decide)).2.1⟩

/-- C9: creating a book whose data lacks the isbn field altogether throws
a `TypeError` at the normalization step `bookData.isbn.replace(...)`,
which the catch chain wraps as a 500 Internal error — never as the 422
ValidationError that the schema's required-isbn constraint would have
produced, since validation is never reached. -/
theorem createBook_missing_isbn_is_internal (cy : Int) (id : String) (t : Int)
    (store : List BookRec) (d : BookData) (h : d.isbn = none) :
    createBook cy id t store d =
      (store, Except.error ⟨500,
        "Error creating book: Cannot read properties of undefined (reading 'replace')"⟩) ∧
    (∀ m : String, createBook cy id t store d ≠ (store, Except.error (ApiErr.validationError m))) := by
  have h1 : createBookTry cy id t store d = Except.error (CreateFault.typeFault
      "Cannot read properties of undefined (reading 'replace')") := by
    unfold createBookTry
    rw [h]
  constructor
  · unfold createBook
    rw [h1]
    rfl
  · intro m hc
    unfold createBook at hc
    rw [h1] at hc
    simp [ApiErr.validationError] at hc

/-- C9 witness: concrete creation data with every field but isbn present
still yields the wrapped 500. -/
theorem createBook_missing_isbn_is_internal_witness :
    createBook 2025 widA 7 [] { gatsbyData with isbn := none } =
      ([], Except.error ⟨500,
        "Error creating book: Cannot read properties of undefined (reading 'replace')"⟩) :=
  (createBook_missing_isbn_is_internal 2025 widA 7 [] { gatsbyData with isbn := none } rfl).1

/-- C4: when the query supplies no (truthy) status filter, `getAllBooks`
pins the effective filter to `status = 'active'` and every book on the
returned page is active, whatever mix of statuses the store holds; when a
non-empty status is supplied, that value is used instead and every
returned book carries it. -/
theorem getAllBooks_defaults_status_active (store : List BookRec) (qp : QueryParams) :
    (truthyS (qget qp.filterParams "status") = false →
       qget (getAllBooks store qp).filters "status" = some (FilterVal.str "active") ∧
       ∀ b ∈ (getAllBooks store qp).books, b.status = "active") ∧
    (∀ s : String, qget qp.filterParams "status" = some s → s ≠ "" →
       qget (getAllBooks store qp).filters "status" = some (FilterVal.str s) ∧
       ∀ b ∈ (getAllBooks store qp).books, b.status = s) := by
  have hfilters : (getAllBooks store qp).filters = effectiveFilters qp := rfl
  constructor
  · intro h
    have hq : qget (effectiveFilters qp) "status" = some (FilterVal.str "active") := by
      rw [qget_effectiveFilters_status, if_neg (by rw [h]; exact Bool.false_ne_true)]
    refine ⟨by rw [hfilters]; exact hq, ?_⟩
    intro b hb
    exact matchesFilters_status _ b _ hq (getAllBooks_mem_matches store qp b hb).1
  · intro s hs hsne
    have ht : truthyS (qget qp.filterParams "status") = true := by
      rw [hs]
      simpa [truthyS] using hsne
    have hqs : qstr qp.filterParams "status" = s := by simp [qstr, hs]
    have hq : qget (effectiveFilters qp) "status" = some (FilterVal.str s) := by
      rw [qget_effectiveFilters_status, if_pos ht, hqs]
    refine ⟨by rw [hfilters]; exact hq, ?_⟩
    intro b hb
    exact matchesFilters_status _ b _ hq (getAllBooks_mem_matches store qp b hb).1

/-- C4 witness: on a store with an active, an inactive and a discontinued
book and an empty query, the effective filter reports `status = 'active'`
and the page is all-active; supplying `status=inactive` switches the
filter to that value. -/
theorem getAllBooks_defaults_status_active_witness :
    (qget (getAllBooks sampleStore {}).filters "status" = some (FilterVal.str "active") ∧
     ∀ b ∈ (getAllBooks sampleStore {}).books, b.status = "active") ∧
    qget (getAllBooks sampleStore { filterParams := [("status", "inactive")] }).filters "status" =
      some (FilterVal.str "inactive") :=
  ⟨(getAllBooks_defaults_status_active sampleStore {}).1 (by decide),
   ((getAllBooks_defaults_status_active sampleStore
       { filterParams := [("status", "inactive")] }).2 "inactive" (by decide) (by decide)).1⟩

/-- C5: creating a book stores its normalized isbn, so a later
`getBookByIsbn` with any spelling that normalizes to the same string
returns that very record, and a second `createBook` whose isbn normalizes
to the same string fails with Conflict and leaves the store exactly as it
was. -/
theorem createBook_getByIsbn_normalized (cy : Int) (store : List BookRec) (d1 d2 : BookData)
    (id1 id2 : String) (t1 t2 : Int) (store1 : List BookRec) (r1 : BookRec)
    (h : createBook cy id1 t1 store d1 = (store1, Except.ok r1)) :
    (∀ isbn2 : String, cleanIsbn isbn2 = r1.isbn →
       getBookByIsbn store1 isbn2 = Except.ok r1) ∧
    (∀ i2 : String, d2.isbn = some i2 → cleanIsbn i2 = r1.isbn →
       createBook cy id2 t2 store1 d2 =
         (store1, Except.error (ApiErr.conflict "A book with this ISBN already exists"))) := by
  unfold createBook at h
  cases htry : createBookTry cy id1 t1 store d1 with
  | error f =>
    rw [htry] at h
    cases f <;> simp at h
  | ok pr =>
    rw [htry] at h
    obtain ⟨store1p, b⟩ := pr
    simp only [Prod.mk.injEq, Except.ok.injEq] at h
    obtain ⟨hst, hb⟩ := h
    subst hst
    subst hb
    unfold createBookTry at htry
    cases hisbn : d1.isbn with
    | none =>
      simp only [hisbn] at htry
      exact Except.noConfusion htry
    | some i1 =>
      simp only [hisbn] at htry
      cases hfind : store.find? (fun bk => bk.isbn = cleanIsbn i1) with
      | some bk =>
        simp only [hfind] at htry
        exact Except.noConfusion htry
      | none =>
        simp only [hfind] at htry
        cases hsave : bookSave cy id1 t1 store d1 with
        | error msgs =>
          simp only [hsave] at htry
          exact Except.noConfusion htry
        | ok pr2 =>
          simp only [hsave, Except.ok.injEq] at htry
          unfold bookSave at hsave
          by_cases hval : (validateBook cy d1).isEmpty = true
          · rw [if_pos hval] at hsave
            rw [htry] at hsave
            simp only [Except.ok.injEq] at hsave
            have hstore1 : store1p = store ++ [b] := by
              have h1 := congrArg Prod.fst hsave
              have h2 := congrArg Prod.snd hsave
              simp only at h1 h2
              rw [← h1, h2]
            have hr1isbn : b.isbn = cleanIsbn i1 := by
              have h2 := congrArg Prod.snd hsave
              simp only at h2
              rw [← h2]
              show cleanIsbn (jsTrim (d1.isbn.getD "")) = cleanIsbn i1
              rw [hisbn]
              exact cleanIsbn_jsTrim i1
            constructor
            · intro isbn2 hisbn2
              have hf : (store ++ [b]).find? (fun bk => bk.isbn = cleanIsbn isbn2) =
                  some b := by
                apply find?_append_right
                · have hcc : cleanIsbn isbn2 = cleanIsbn i1 := by rw [hisbn2, hr1isbn]
                  rw [hcc]
                  exact hfind
                · show (decide (b.isbn = cleanIsbn isbn2)) = true
                  rw [hisbn2]
                  simp
              unfold getBookByIsbn
              rw [hstore1, hf]
            · intro i2 hd2 hi2
              have hf2 : (store ++ [b]).find? (fun bk => bk.isbn = cleanIsbn i2) =
                  some b := by
                apply find?_append_right
                · have hcc : cleanIsbn i2 = cleanIsbn i1 := by rw [hi2, hr1isbn]
                  rw [hcc]
                  exact hfind
                · show (decide (b.isbn = cleanIsbn i2)) = true
                  rw [hi2]
                  simp
              have htry2 : createBookTry cy id2 t2 store1p d2 = Except.error
                  (CreateFault.apiFault
                    (ApiErr.conflict "A book with this ISBN already exists")) := by
                unfold createBookTry
                simp only [hd2, hstore1, hf2]
              unfold createBook
              rw [htry2]
          · rw [if_neg hval] at hsave
            exact absurd hsave (by simp)

/-- C5 witness: creating with isbn `978-0-74-327356-5` and fetching by
`9780743273565` returns the created record; a second create with the
already-normalized isbn fails with Conflict and persists nothing. -/
theorem createBook_getByIsbn_normalized_witness :
    getBookByIsbn [gatsbyRec] "9780743273565" = Except.ok gatsbyRec ∧
    createBook 2025 widB 8 [gatsbyRec] { gatsbyData with isbn := some "9780743273565" } =
      ([gatsbyRec], Except.error (ApiErr.conflict "A book with this ISBN already exists")) :=
  have h := createBook_getByIsbn_normalized 2025 [] gatsbyData
    { gatsbyData with isbn := some "9780743273565" } widA widB 7 8 [gatsbyRec] gatsbyRec
    (by rfl)
  ⟨h.1 "9780743273565" (by decide), h.2 "9780743273565" rfl (by decide)⟩

/-- C6: the Sort Parser defaults to `[(createdAt, descending)]` for an
absent or empty sort string, drops disallowed fields so that
`-createdAt,title` against allow-list `[title, author]` yields exactly
`[(title, ascending)]`, falls back to the default when every token is
filtered out, equals the kept tokens in caller order (with `-` meaning
descending) whenever their bare names are distinct, and never contains
anything beyond the default entry and kept tokens. -/
theorem parseSort_keeps_allowed_tokens :
    (∀ a : List String, parseSort none a = [("createdAt", -1)] ∧
       parseSort (some "") a = [("createdAt", -1)]) ∧
    parseSort (some "-createdAt,title") ["title", "author"] = [("title", 1)] ∧
    (∀ (s : String) (a : List String), s ≠ "" → keptTokens s a = [] →
       parseSort (some s) a = [("createdAt", -1)]) ∧
    (∀ (s : String) (a : List String), s ≠ "" → keptTokens s a ≠ [] →
       ((keptTokens s a).map Prod.fst).Nodup →
       parseSort (some s) a = keptTokens s a) ∧
    (∀ (s : String) (a : List String) (p : String × Int), p ∈ parseSort (some s) a →
       p = ("createdAt", -1) ∨ p ∈ keptTokens s a) := by
  refine ⟨?_, ?_, ?_, ?_, ?_⟩
  · intro a
    exact ⟨rfl, by simp [parseSort]⟩
  · decide
  · intro s a hs hk
    have hfold := sortFold_eq a (splitComma s) []
      (by rw [List.nil_append]; rw [show keptTokensL a (splitComma s) = keptTokens s a from rfl,
            hk]; exact List.nodup_nil)
    rw [show keptTokensL a (splitComma s) = keptTokens s a from rfl, hk] at hfold
    simp only [parseSort, if_neg hs, hfold]
    rfl
  · intro s a hs hne hnd
    have hfold := sortFold_eq a (splitComma s) []
      (by rw [List.nil_append]; exact hnd)
    rw [List.nil_append] at hfold
    have hlen : (keptTokens s a).length > 0 := List.length_pos.mpr hne
    simp only [parseSort, if_neg hs, hfold]
    rw [if_pos (by exact hlen)]
    rfl
  · intro s a p hp
    by_cases hs : s = ""
    · subst hs
      simp only [parseSort] at hp
      exact Or.inl (List.mem_singleton.mp hp)
    · simp only [parseSort, if_neg hs] at hp
      by_cases hlen : ((splitComma s).foldl (sortStep a) []).length > 0
      · rw [if_pos hlen] at hp
        rcases sortFold_mem a (splitComma s) [] p hp with h1 | h1
        · exact absurd h1 (List.not_mem_nil p)
        · exact Or.inr h1
      · rw [if_neg hlen] at hp
        exact Or.inl (List.mem_singleton.mp hp)

/-- C6 witness: a fully filtered-out sort string falls back to the
default, and with an empty allow-list the kept tokens come back verbatim
in order with their directions. -/
theorem parseSort_keeps_allowed_tokens_witness :
    parseSort (some "x") ["title"] = [("createdAt", -1)] ∧
    parseSort (some "a,-b") ([] : List String) = [("a", 1), ("b", -1)] :=
  ⟨parseSort_keeps_allowed_tokens.2.2.1 "x" ["title"] (by decide) (by decide),
   by
    rw [parseSort_keeps_allowed_tokens.2.2.2.1 "a,-b" [] (by decide) (by decide) (by decide)]
    decide⟩

/-- C10: the request sanitizer strips every brace and dollar character
from every string value, recursively through nested objects, in
`req.body`, `req.query` and `req.params` alike; it transforms rather than
rejects, so the result always exists and only string contents change. -/
theorem sanitizeRequest_strips_injection_chars :
    (∀ v : JVal, noInjVal (sanitizeVal v) = true) ∧
    (∀ bf qf pf : JFields,
       noInjVal (sanitizeRequest ⟨JVal.jobj bf, JVal.jobj qf, JVal.jobj pf⟩).body = true ∧
       noInjVal (sanitizeRequest ⟨JVal.jobj bf, JVal.jobj qf, JVal.jobj pf⟩).query = true ∧
       noInjVal (sanitizeRequest ⟨JVal.jobj bf, JVal.jobj qf, JVal.jobj pf⟩).params = true) := by
  refine ⟨noInj_sanitizeVal, ?_⟩
  intro bf qf pf
  exact ⟨noInj_sanitizeFields bf, noInj_sanitizeFields qf, noInj_sanitizeFields pf⟩
